import Mathlib

/-!
Verification model of a small HTTP/1.1 server written in Go
(`app/main.go`).  The byte stream read from a connection is modelled as a
list of characters; the bytes the server writes back are collected into a
list of characters as well.  Each Go helper (`strings.Fields`,
`strings.TrimSpace`, `strconv.Atoi`, `filepath.Join`, `bufio.ReadString`,
the header map, …) is translated to an executable Lean definition, and the
per-connection loop `handleConnection` becomes the function `serve`.
The gzip compressor from the Go standard library is kept abstract: the
model is parameterised over the compression function, since the server
only ever feeds the body through it.
-/

set_option maxRecDepth 4000

namespace HttpModel

/-- Wire bytes / Go strings, as lists of characters. -/
abbrev Str := List Char

/-- Character list of a Lean string literal. -/
def strLit (s : String) : Str := s.data

/-- Whitespace accepted by Go `strings.Fields` / `strings.TrimSpace`
(the ASCII and Latin-1 portion of `unicode.IsSpace`). -/
def isSpaceGo (c : Char) : Bool :=
  c == ' ' || c == '\t' || c == '\n' || c == '\u000B' || c == '\u000C' ||
    c == '\r' || c == '\u0085' || c == '\u00A0'

/-- Characters of the cutset `"\r\n"`. -/
def isCRLFc (c : Char) : Bool := c == '\r' || c == '\n'

/-- Go `strings.TrimRight(s, "\r\n")`. -/
def trimRightCRLF (s : Str) : Str := (s.reverse.dropWhile isCRLFc).reverse

/-- Go `strings.TrimSpace`. -/
def trimSpace (s : Str) : Str :=
  ((s.dropWhile isSpaceGo).reverse.dropWhile isSpaceGo).reverse

/-- Accumulator version of `fields`; `w` is the current word, reversed. -/
def fieldsAux : Str → Str → List Str
  | [], w => if w = [] then [] else [w.reverse]
  | c :: cs, w =>
    if isSpaceGo c then
      if w = [] then fieldsAux cs [] else w.reverse :: fieldsAux cs []
    else fieldsAux cs (c :: w)

/-- Go `strings.Fields`: split around runs of whitespace. -/
def fields (s : Str) : List Str := fieldsAux s []

/-- Go `strings.HasPrefix s p`, as `strHasPref p s`. -/
def strHasPref : Str → Str → Bool
  | [], _ => true
  | _ :: _, [] => false
  | p :: ps, c :: cs => p == c && strHasPref ps cs

/-- Go `strings.TrimPrefix s p`, as `strTrimPref p s`. -/
def strTrimPref (p s : Str) : Str :=
  if strHasPref p s then s.drop p.length else s

/-- Go `strings.Contains s sub`. -/
def containsSub (s sub : Str) : Bool :=
  if strHasPref sub s then true
  else
    match s with
    | [] => false
    | _ :: rest => containsSub rest sub

/-- Go `strings.ToLower`. -/
def strToLower (s : Str) : Str := s.map Char.toLower

/-- Decimal digits accumulator for `atoi`. -/
def digitsValAux : Str → Nat → Option Nat
  | [], acc => some acc
  | c :: cs, acc =>
    if '0' ≤ c ∧ c ≤ '9' then digitsValAux cs (acc * 10 + (c.toNat - '0'.toNat))
    else none

/-- All-decimal value of a non-empty digit string. -/
def digitsVal : Str → Option Nat
  | [] => none
  | s => digitsValAux s 0

/-- Go `strconv.Atoi` (64-bit platform): optional sign, decimal digits,
error outside the `int64` range. -/
def atoi (s : Str) : Option Int :=
  let core : Option Int :=
    match s with
    | '+' :: rest => (digitsVal rest).map (fun n => (n : Int))
    | '-' :: rest => (digitsVal rest).map (fun n => -(n : Int))
    | _ => (digitsVal s).map (fun n => (n : Int))
  match core with
  | none => none
  | some v => if v < -(2 ^ 63) ∨ (2 ^ 63 - 1 : Int) < v then none else some v

/-- Go map read with comma-ok (`v, ok := m[k]`). -/
def assocGet? (m : List (Str × Str)) (k : Str) : Option Str :=
  (m.find? (fun kv => kv.1 == k)).map (fun kv => kv.2)

/-- Go map read defaulting to the zero value `""`. -/
def assocGet (m : List (Str × Str)) (k : Str) : Str := (assocGet? m k).getD []

/-- Go map assignment `m[k] = v` (overwrites an existing entry). -/
def assocPut (m : List (Str × Str)) (k v : Str) : List (Str × Str) :=
  if m.any (fun kv => kv.1 == k) then
    m.map (fun kv => if kv.1 == k then (k, v) else kv)
  else m ++ [(k, v)]

/-- Go `bufio.Reader.ReadString` at delimiter newline: the line up to and including the first
newline, or an error (EOF) if the stream ends first. -/
def readStringNL : Str → Option (Str × Str)
  | [] => none
  | c :: cs =>
    if c = '\n' then some ([c], cs)
    else
      match readStringNL cs with
      | none => none
      | some (l, r) => some (c :: l, r)

lemma readStringNL_length {s l r : Str} (h : readStringNL s = some (l, r)) :
    r.length < s.length := by
  induction s generalizing l r with
  | nil => simp [readStringNL] at h
  | cons c cs ih =>
    rw [readStringNL] at h
    split at h
    · cases h
      simp
    · split at h
      · cases h
      · rename_i l' r' heq
        cases h
        exact Nat.lt_trans (ih heq) (by simp)

/-- Fuelled header loop of `readRequestAndGetMethodPathAndHeaders`:
read CRLF lines until a bare `"\r\n"`, storing `Name: Value` pairs
(first colon splits; a missing or leading colon skips the line). -/
def readHeadersB : Nat → Str → List (Str × Str) → Option (List (Str × Str) × Str)
  | 0, _, _ => none
  | fuel + 1, input, hs =>
    match readStringNL input with
    | none => none
    | some (line, rest) =>
      if line = strLit "\r\n" then some (hs, rest)
      else
        match (trimRightCRLF line).findIdx? (fun c => c == ':') with
        | some i =>
          if 0 < i then
            readHeadersB fuel rest
              (assocPut hs (trimSpace ((trimRightCRLF line).take i))
                (trimSpace ((trimRightCRLF line).drop (i + 1))))
          else readHeadersB fuel rest hs
        | none => readHeadersB fuel rest hs

/-- Header loop with enough fuel for its input. -/
def readHeaders (input : Str) (hs : List (Str × Str)) :
    Option (List (Str × Str) × Str) :=
  readHeadersB input.length input hs

lemma readHeadersB_length :
    ∀ {fuel : Nat} {input : Str} {hs hs2 : List (Str × Str)} {r : Str},
      readHeadersB fuel input hs = some (hs2, r) → r.length ≤ input.length := by
  intro fuel
  induction fuel with
  | zero => intro input hs hs2 r h; simp [readHeadersB] at h
  | succ k ih =>
    intro input hs hs2 r h
    rw [readHeadersB] at h
    split at h
    · cases h
    · rename_i line rest heq
      have hrest := readStringNL_length heq
      split at h
      · cases h
        exact Nat.le_of_lt hrest
      · split at h
        · split at h
          · exact Nat.le_trans (ih h) (Nat.le_of_lt hrest)
          · exact Nat.le_trans (ih h) (Nat.le_of_lt hrest)
        · exact Nat.le_trans (ih h) (Nat.le_of_lt hrest)

lemma readHeadersB_congr :
    ∀ {f1 f2 : Nat} {input : Str} {hs : List (Str × Str)},
      input.length ≤ f1 → input.length ≤ f2 →
      readHeadersB f1 input hs = readHeadersB f2 input hs := by
  intro f1
  induction f1 with
  | zero =>
    intro f2 input hs h1 h2
    have : input = [] := List.eq_nil_of_length_eq_zero (Nat.le_zero.mp h1)
    subst this
    cases f2 with
    | zero => rfl
    | succ m => simp [readHeadersB, readStringNL]
  | succ k ih =>
    intro f2 input hs h1 h2
    cases f2 with
    | zero =>
      have : input = [] := List.eq_nil_of_length_eq_zero (Nat.le_zero.mp h2)
      subst this
      simp [readHeadersB, readStringNL]
    | succ m =>
      cases heq : readStringNL input with
      | none => rw [readHeadersB, readHeadersB, heq]
      | some lr =>
        obtain ⟨line, rest⟩ := lr
        have hrest := readStringNL_length heq
        have hk : rest.length ≤ k := Nat.lt_succ_iff.mp (Nat.lt_of_lt_of_le hrest h1)
        have hm : rest.length ≤ m := Nat.lt_succ_iff.mp (Nat.lt_of_lt_of_le hrest h2)
        rw [readHeadersB, readHeadersB, heq]
        dsimp only
        by_cases hline : line = strLit "\r\n"
        · simp only [if_pos hline]
        · simp only [if_neg hline]
          cases hidx : (trimRightCRLF line).findIdx? (fun c => c == ':') with
          | none => exact ih hk hm
          | some i =>
            by_cases hi : 0 < i
            · simp only [if_pos hi]
              exact ih hk hm
            · simp only [if_neg hi]
              exact ih hk hm

/-- Unfolding equation for `readHeaders`. -/
lemma readHeaders_eq (input : Str) (hs : List (Str × Str)) :
    readHeaders input hs =
      match readStringNL input with
      | none => none
      | some (line, rest) =>
        if line = strLit "\r\n" then some (hs, rest)
        else
          match (trimRightCRLF line).findIdx? (fun c => c == ':') with
          | some i =>
            if 0 < i then
              readHeaders rest
                (assocPut hs (trimSpace ((trimRightCRLF line).take i))
                  (trimSpace ((trimRightCRLF line).drop (i + 1))))
            else readHeaders rest hs
          | none => readHeaders rest hs := by
  show readHeadersB input.length input hs = _
  cases hlen : input.length with
  | zero =>
    have : input = [] := List.eq_nil_of_length_eq_zero hlen
    subst this
    simp [readHeadersB, readStringNL]
  | succ k =>
    cases heq : readStringNL input with
    | none => rw [readHeadersB, heq]
    | some lr =>
      obtain ⟨line, rest⟩ := lr
      have hrest := readStringNL_length heq
      rw [hlen] at hrest
      have hk : rest.length ≤ k := Nat.lt_succ_iff.mp hrest
      rw [readHeadersB, heq]
      dsimp only
      by_cases hline : line = strLit "\r\n"
      · simp only [if_pos hline]
      · simp only [if_neg hline]
        cases hidx : (trimRightCRLF line).findIdx? (fun c => c == ':') with
        | none => exact readHeadersB_congr hk (Nat.le_refl _)
        | some i =>
          by_cases hi : 0 < i
          · simp only [if_pos hi]
            exact readHeadersB_congr hk (Nat.le_refl _)
          · simp only [if_neg hi]
            exact readHeadersB_congr hk (Nat.le_refl _)

lemma readHeaders_length {input : Str} {hs hs2 : List (Str × Str)} {r : Str}
    (h : readHeaders input hs = some (hs2, r)) : r.length ≤ input.length :=
  readHeadersB_length h

/-- A parsed request: method, path and the header map. -/
structure Req where
  method : Str
  path : Str
  headers : List (Str × Str)
deriving DecidableEq

/-- Go `readRequestAndGetMethodPathAndHeaders`: request line (exactly three
whitespace-separated fields, version starting with `HTTP/`), then the
header block; the remaining stream plays the role of the returned
`bufio.Reader`. -/
def readRequest (input : Str) : Option (Req × Str) :=
  match readStringNL input with
  | none => none
  | some (reqLine, rest) =>
    match fields (trimRightCRLF reqLine) with
    | [m, p, v] =>
      if strHasPref (strLit "HTTP/") v then
        match readHeaders rest [] with
        | none => none
        | some (hs, rest2) => some (⟨m, p, hs⟩, rest2)
      else none
    | _ => none

lemma readRequest_length {input : Str} {req : Req} {rest : Str}
    (h : readRequest input = some (req, rest)) : rest.length < input.length := by
  rw [readRequest] at h
  split at h
  · cases h
  · rename_i reqLine rest1 heq1
    have h1 := readStringNL_length heq1
    split at h
    · split at h
      · split at h
        · cases h
        · rename_i hs rest2 heq2
          cases h
          exact Nat.lt_of_le_of_lt (readHeaders_length heq2) h1
      · cases h
    · cases h

/-- Component processing for Go `path/filepath.Clean` (Unix rules):
`acc` is the stack of kept components, reversed. -/
def cleanComps : List Str → Bool → List Str → List Str
  | [], _, acc => acc.reverse
  | c :: cs, rooted, acc =>
    if c = [] ∨ c = strLit "." then cleanComps cs rooted acc
    else if c = strLit ".." then
      match acc with
      | top :: rest =>
        if top = strLit ".." then cleanComps cs rooted (c :: top :: rest)
        else cleanComps cs rooted rest
      | [] => if rooted then cleanComps cs rooted [] else cleanComps cs rooted [c]
    else cleanComps cs rooted (c :: acc)

/-- Go `path/filepath.Clean` on Unix. -/
def pathClean (p : Str) : Str :=
  if p = [] then strLit "."
  else
    let rooted := p.head? = some '/'
    let comps := cleanComps (p.splitOn '/') rooted []
    let out := (if rooted then ['/'] else []) ++ List.intercalate (strLit "/") comps
    if out = [] then strLit "." else out

/-- Go `filepath.Join(a, b)` on Unix. -/
def filepathJoin (a b : Str) : Str :=
  if a ≠ [] then pathClean (a ++ '/' :: b)
  else if b ≠ [] then pathClean b
  else []

/-- The filesystem seen by `os.Open` / `os.Create` / `File.Write`:
a path-indexed store plus the sets of paths on which creating or
writing fails. -/
structure FSState where
  files : List (Str × Str)
  createFails : List Str
  writeFails : List Str
deriving DecidableEq

/-- Response literals written by the Go handlers. -/
def resp400 : Str := strLit "HTTP/1.1 400 Bad Request\r\n\r\n"

def resp404files : Str := strLit "HTTP/1.1 404 Not Found\r\n\r\n"

def resp404default : Str := strLit "HTTP/1.1 404 Not Found\r\nContent-Length: 0\r\n\r\n"

def resp405 : Str := strLit "HTTP/1.1 405 Method Not Allowed\r\n\r\n"

def resp500 : Str := strLit "HTTP/1.1 500 Internal Server Error\r\n\r\n"

def resp201 : Str := strLit "HTTP/1.1 201 Created\r\n\r\n"

/-- Decimal rendering used by `fmt.Sprintf("%d", n)`. -/
def natToStr (n : Nat) : Str := Nat.toDigits 10 n

/-- Response of the root path `/`. -/
def rootResp : Str :=
  strLit "HTTP/1.1 200 OK\r\nContent-Length: " ++ natToStr (strLit "OK\n").length ++
    strLit "\r\nContent-Type: text/plain\r\n\r\n" ++ strLit "OK\n"

/-- Uncompressed `/echo/` response. -/
def echoResp (s : Str) : Str :=
  strLit "HTTP/1.1 200 OK\r\nContent-Type: text/plain\r\nContent-Length: " ++
    natToStr s.length ++ strLit "\r\n\r\n" ++ s

/-- Header block of the gzip `/echo/` response (the compressed body is
written right after it). -/
def gzipRespHeader (n : Nat) : Str :=
  strLit "HTTP/1.1 200 OK\r\nContent-Type: text/plain\r\nContent-Encoding: gzip\r\nContent-Length: " ++
    natToStr n ++ strLit "\r\n\r\n"

/-- Response of the `/user-agent` path. -/
def uaResp (ua : Str) : Str :=
  strLit "HTTP/1.1 200 OK\r\nContent-Type: text/plain\r\nContent-Length: " ++
    natToStr ua.length ++ strLit "\r\n\r\n" ++ ua

/-- Header block of a successful `/files/` GET response. -/
def fileOkHeader (n : Nat) : Str :=
  strLit "HTTP/1.1 200 OK\r\nContent-Type: application/octet-stream\r\nContent-Length: " ++
    natToStr n ++ strLit "\r\n\r\n"

/-- Go `handleFileGetRequest`: 404 without a configured directory, open the
joined path, 404 when that fails, else stream the file. -/
def handleFileGet (dir : Str) (fs : FSState) (filename : Str) : Str :=
  if dir = [] then resp404files
  else
    match assocGet? fs.files (filepathJoin dir filename) with
    | none => resp404files
    | some content => fileOkHeader content.length ++ content

/-- Go `handleFilePostRequest`: returns the bytes written to the connection,
the updated filesystem, and the remaining reader stream. -/
def handleFilePost (dir : Str) (fs : FSState) (filename : Str)
    (hs : List (Str × Str)) (reader : Str) : Str × FSState × Str :=
  if dir = [] then (resp404files, fs, reader)
  else
    match assocGet? hs (strLit "Content-Length") with
    | none => (resp400, fs, reader)
    | some clStr =>
      match atoi clStr with
      | none => (resp400, fs, reader)
      | some n =>
        if n < 0 then (resp400, fs, reader)
        else
          if reader.length < n.toNat then (resp400, fs, reader.drop n.toNat)
          else
            let p := filepathJoin dir filename
            if p ∈ fs.createFails then (resp500, fs, reader.drop n.toNat)
            else
              if p ∈ fs.writeFails then
                (resp500, ⟨assocPut fs.files p [], fs.createFails, fs.writeFails⟩,
                  reader.drop n.toNat)
              else
                (resp201,
                  ⟨assocPut (assocPut fs.files p []) p (reader.take n.toNat),
                    fs.createFails, fs.writeFails⟩,
                  reader.drop n.toNat)

/-- The routing `if`/`else` chain of `handleConnection`, for one parsed
request: returns the bytes written, the new filesystem, and the
remaining reader stream. `gz` is the gzip compressor. -/
def dispatch (gz : Str → Str) (dir : Str) (fs : FSState) (req : Req)
    (reader : Str) : Str × FSState × Str :=
  if req.path = strLit "/" then (rootResp, fs, reader)
  else if strHasPref (strLit "/echo/") req.path then
    let s := strTrimPref (strLit "/echo/") req.path
    if containsSub (assocGet req.headers (strLit "Accept-Encoding")) (strLit "gzip") then
      (gzipRespHeader (gz s).length ++ gz s, fs, reader)
    else (echoResp s, fs, reader)
  else if req.path = strLit "/user-agent" then
    (uaResp (assocGet req.headers (strLit "User-Agent")), fs, reader)
  else if strHasPref (strLit "/files/") req.path then
    let filename := strTrimPref (strLit "/files/") req.path
    if req.method = strLit "GET" then (handleFileGet dir fs filename, fs, reader)
    else if req.method = strLit "POST" then handleFilePost dir fs filename req.headers reader
    else (resp405, fs, reader)
  else (resp404default, fs, reader)

lemma handleFilePost_reader_le (dir : Str) (fs : FSState) (filename : Str)
    (hs : List (Str × Str)) (reader : Str) :
    (handleFilePost dir fs filename hs reader).2.2.length ≤ reader.length := by
  rw [handleFilePost]
  split
  · exact Nat.le_refl _
  · split
    · exact Nat.le_refl _
    · split
      · exact Nat.le_refl _
      · split
        · exact Nat.le_refl _
        · split
          · simp
          · dsimp only
            split
            · simp
            · split
              · simp
              · simp

lemma dispatch_reader_le (gz : Str → Str) (dir : Str) (fs : FSState) (req : Req)
    (reader : Str) :
    (dispatch gz dir fs req reader).2.2.length ≤ reader.length := by
  rw [dispatch]
  split
  · exact Nat.le_refl _
  · split
    · split
      · exact Nat.le_refl _
      · exact Nat.le_refl _
    · split
      · exact Nat.le_refl _
      · split
        · split
          · exact Nat.le_refl _
          · split
            · exact handleFilePost_reader_le ..
            · exact Nat.le_refl _
        · exact Nat.le_refl _

/-- Fuelled per-connection loop of `handleConnection`: parse a request
(silently closing on failure), look up the `Connection` header, dispatch,
write the response, and loop unless the client asked to close. -/
def serveB : Nat → (Str → Str) → Str → FSState → Str → Str × FSState
  | 0, _, _, fs, _ => ([], fs)
  | fuel + 1, gz, dir, fs, input =>
    match readRequest input with
    | none => ([], fs)
    | some (req, rest) =>
      let d := dispatch gz dir fs req rest
      if strToLower (assocGet req.headers (strLit "Connection")) = strLit "close" then
        (d.1, d.2.1)
      else
        let s2 := serveB fuel gz dir d.2.1 d.2.2
        (d.1 ++ s2.1, s2.2)

/-- The per-connection loop, with enough fuel for its input: the bytes
the server writes on the connection, and the final filesystem. -/
def serve (gz : Str → Str) (dir : Str) (fs : FSState) (input : Str) : Str × FSState :=
  serveB input.length gz dir fs input

lemma serveB_congr :
    ∀ {f1 f2 : Nat} {gz : Str → Str} {dir : Str} {fs : FSState} {input : Str},
      input.length ≤ f1 → input.length ≤ f2 →
      serveB f1 gz dir fs input = serveB f2 gz dir fs input := by
  intro f1
  induction f1 with
  | zero =>
    intro f2 gz dir fs input h1 h2
    have : input = [] := List.eq_nil_of_length_eq_zero (Nat.le_zero.mp h1)
    subst this
    cases f2 with
    | zero => rfl
    | succ m => simp [serveB, readRequest, readStringNL]
  | succ k ih =>
    intro f2 gz dir fs input h1 h2
    cases f2 with
    | zero =>
      have : input = [] := List.eq_nil_of_length_eq_zero (Nat.le_zero.mp h2)
      subst this
      simp [serveB, readRequest, readStringNL]
    | succ m =>
      cases heq : readRequest input with
      | none => rw [serveB, serveB, heq]
      | some rr =>
        obtain ⟨req, rest⟩ := rr
        have hrest := readRequest_length heq
        rw [serveB, serveB, heq]
        dsimp only
        by_cases hc :
            strToLower (assocGet req.headers (strLit "Connection")) = strLit "close"
        · simp only [if_pos hc]
        · simp only [if_neg hc]
          have hd : (dispatch gz dir fs req rest).2.2.length ≤ rest.length :=
            dispatch_reader_le ..
          have hk : (dispatch gz dir fs req rest).2.2.length ≤ k :=
            Nat.lt_succ_iff.mp (Nat.lt_of_le_of_lt hd (Nat.lt_of_lt_of_le hrest h1))
          have hm : (dispatch gz dir fs req rest).2.2.length ≤ m :=
            Nat.lt_succ_iff.mp (Nat.lt_of_le_of_lt hd (Nat.lt_of_lt_of_le hrest h2))
          rw [ih hk hm]

/-- Unfolding equation for the connection loop. -/
lemma serve_eq (gz : Str → Str) (dir : Str) (fs : FSState) (input : Str) :
    serve gz dir fs input =
      match readRequest input with
      | none => ([], fs)
      | some (req, rest) =>
        let d := dispatch gz dir fs req rest
        if strToLower (assocGet req.headers (strLit "Connection")) = strLit "close" then
          (d.1, d.2.1)
        else
          let s2 := serve gz dir d.2.1 d.2.2
          (d.1 ++ s2.1, s2.2) := by
  show serveB input.length gz dir fs input = _
  cases hlen : input.length with
  | zero =>
    have : input = [] := List.eq_nil_of_length_eq_zero hlen
    subst this
    simp [serveB, readRequest, readStringNL]
  | succ k =>
    cases heq : readRequest input with
    | none => rw [serveB, heq]
    | some rr =>
      obtain ⟨req, rest⟩ := rr
      have hrest := readRequest_length heq
      rw [hlen] at hrest
      rw [serveB, heq]
      dsimp only
      by_cases hc :
          strToLower (assocGet req.headers (strLit "Connection")) = strLit "close"
      · simp only [if_pos hc]
      · simp only [if_neg hc]
        have hd : (dispatch gz dir fs req rest).2.2.length ≤ rest.length :=
          dispatch_reader_le ..
        have hk : (dispatch gz dir fs req rest).2.2.length ≤ k :=
          Nat.lt_succ_iff.mp (Nat.lt_of_le_of_lt hd hrest)
        rw [serve, serveB_congr hk (Nat.le_refl _)]

/-! ### Helper lemmas -/

lemma strHasPref_append (p s : Str) : strHasPref p (p ++ s) = true := by
  induction p with
  | nil => rfl
  | cons c cs ih => simp [strHasPref, ih]

lemma strTrimPref_append (p s : Str) : strTrimPref p (p ++ s) = s := by
  rw [strTrimPref, if_pos (strHasPref_append p s), List.drop_left]

lemma readStringNL_append {a l r : Str} (h : readStringNL a = some (l, r)) (t : Str) :
    readStringNL (a ++ t) = some (l, r ++ t) := by
  induction a generalizing l r with
  | nil => simp [readStringNL] at h
  | cons c cs ih =>
    rw [readStringNL] at h
    rw [List.cons_append, readStringNL]
    split at h
    · cases h
      rename_i hc
      rw [if_pos hc]
    · rename_i hc
      rw [if_neg hc]
      cases heq : readStringNL cs with
      | none => rw [heq] at h; cases h
      | some lr =>
        obtain ⟨l', r'⟩ := lr
        rw [heq] at h
        cases h
        rw [ih heq]

lemma readStringNL_break {a : Str} (ha : ∀ c ∈ a, c ≠ '\n') (r : Str) :
    readStringNL (a ++ '\n' :: r) = some (a ++ ['\n'], r) := by
  induction a with
  | nil => simp [readStringNL]
  | cons c cs ih =>
    rw [List.cons_append, readStringNL, if_neg (ha c (List.mem_cons_self c cs))]
    rw [ih (fun x hx => ha x (List.mem_cons_of_mem c hx))]
    simp

lemma dropWhile_eq_self_of_head {p : Char → Bool} {y : Str}
    (h : ∀ c ∈ y, p c = false) : y.dropWhile p = y := by
  cases y with
  | nil => rfl
  | cons c t =>
    rw [List.dropWhile_cons, h c (List.mem_cons_self c t)]
    simp

lemma trimRightCRLF_no_crlf {x : Str} (h : ∀ c ∈ x, isCRLFc c = false) :
    trimRightCRLF x = x := by
  rw [trimRightCRLF,
    dropWhile_eq_self_of_head (fun c hc => h c (List.mem_reverse.mp hc)),
    List.reverse_reverse]

lemma trimRightCRLF_crlf_end (x : Str) :
    trimRightCRLF (x ++ ['\r', '\n']) = trimRightCRLF x := by
  rw [trimRightCRLF, trimRightCRLF, List.reverse_append]
  simp [List.dropWhile_cons, isCRLFc]

lemma trimSpace_space_cons (v : Str) : trimSpace (' ' :: v) = trimSpace v := by
  rw [trimSpace, trimSpace, List.dropWhile_cons]
  simp [isSpaceGo]

lemma findIdx_colon_append {name : Str} (h : ∀ c ∈ name, (c == ':') = false)
    (v : Str) :
    (name ++ ':' :: v).findIdx? (fun c => c == ':') = some name.length := by
  induction name with
  | nil => simp
  | cons c cs ih =>
    rw [List.cons_append, List.findIdx?_cons,
      if_neg (by simp [h c (List.mem_cons_self c cs)]), List.findIdx?_succ,
      ih (fun x hx => h x (List.mem_cons_of_mem c hx))]
    rfl

lemma assocPut_nil (k v : Str) : assocPut [] k v = [(k, v)] := by
  simp [assocPut]

lemma assocPut_cons_ne {k' v' k v : Str} (t : List (Str × Str))
    (h : (k' == k) = false) :
    assocPut ((k', v') :: t) k v = (k', v') :: assocPut t k v := by
  by_cases ht : (t.any fun kv => kv.1 == k) = true
  · have hany : (((k', v') :: t).any fun kv => kv.1 == k) = true := by
      simp only [List.any_cons]
      rw [h, ht]
      rfl
    rw [assocPut, if_pos hany, assocPut, if_pos ht, List.map_cons]
    congr 1
    rw [if_neg (by rw [h]; exact Bool.false_ne_true)]
  · have ht' : (t.any fun kv => kv.1 == k) = false := Bool.eq_false_iff.mpr ht
    have hany : (((k', v') :: t).any fun kv => kv.1 == k) = false := by
      simp only [List.any_cons]
      rw [h, ht']
      rfl
    rw [assocPut, if_neg (by rw [hany]; exact Bool.false_ne_true),
      assocPut, if_neg (by rw [ht']; exact Bool.false_ne_true)]
    rfl

lemma assocGet?_assocPut (m : List (Str × Str)) (k v : Str) :
    assocGet? (assocPut m k v) k = some v := by
  induction m with
  | nil =>
    rw [assocPut_nil, assocGet?, List.find?_cons_of_pos _ (by simp)]
    rfl
  | cons kv t ih =>
    obtain ⟨k', v'⟩ := kv
    by_cases hk : (k' == k) = true
    · have hany : (((k', v') :: t).any fun kv => kv.1 == k) = true := by
        simp only [List.any_cons]
        rw [hk]
        rfl
      rw [assocPut, if_pos hany, List.map_cons, if_pos hk]
      rw [assocGet?, List.find?_cons_of_pos _ (by simp)]
      rfl
    · have hk' : (k' == k) = false := Bool.eq_false_iff.mpr hk
      rw [assocPut_cons_ne t hk']
      rw [assocGet?, List.find?_cons_of_neg _ (by simp [hk'])]
      exact ih

lemma echoResp_ne_nil (s : Str) : echoResp s ≠ [] := by
  rw [echoResp]
  simp only [List.append_assoc]
  exact List.append_ne_nil_of_left_ne_nil (by decide) _

lemma gzipResp_ne_nil (n : Nat) (x : Str) : gzipRespHeader n ++ x ≠ [] := by
  rw [gzipRespHeader]
  simp only [List.append_assoc]
  exact List.append_ne_nil_of_left_ne_nil (by decide) _

lemma uaResp_ne_nil (u : Str) : uaResp u ≠ [] := by
  rw [uaResp]
  simp only [List.append_assoc]
  exact List.append_ne_nil_of_left_ne_nil (by decide) _

lemma fileOkBody_ne_nil (n : Nat) (x : Str) : fileOkHeader n ++ x ≠ [] := by
  rw [fileOkHeader]
  simp only [List.append_assoc]
  exact List.append_ne_nil_of_left_ne_nil (by decide) _

lemma handleFileGet_ne_nil (dir : Str) (fs : FSState) (fn : Str) :
    handleFileGet dir fs fn ≠ [] := by
  rw [handleFileGet]
  split
  · decide
  · split
    · decide
    · exact fileOkBody_ne_nil _ _

lemma handleFilePost_ne_nil (dir : Str) (fs : FSState) (fn : Str)
    (hs : List (Str × Str)) (reader : Str) :
    (handleFilePost dir fs fn hs reader).1 ≠ [] := by
  rw [handleFilePost]
  split
  · exact (by decide : resp404files ≠ [])
  · split
    · exact (by decide : resp400 ≠ [])
    · split
      · exact (by decide : resp400 ≠ [])
      · split
        · exact (by decide : resp400 ≠ [])
        · split
          · exact (by decide : resp400 ≠ [])
          · dsimp only
            split
            · exact (by decide : resp500 ≠ [])
            · split
              · exact (by decide : resp500 ≠ [])
              · exact (by decide : resp201 ≠ [])

lemma dispatch_ne_nil (gz : Str → Str) (dir : Str) (fs : FSState) (req : Req)
    (reader : Str) : (dispatch gz dir fs req reader).1 ≠ [] := by
  rw [dispatch]
  split
  · exact (by decide : rootResp ≠ [])
  · split
    · dsimp only
      split
      · exact gzipResp_ne_nil _ _
      · exact echoResp_ne_nil _
    · split
      · exact uaResp_ne_nil _
      · split
        · dsimp only
          split
          · exact handleFileGet_ne_nil _ _ _
          · split
            · exact handleFilePost_ne_nil _ _ _ _ _
            · exact (by decide : resp405 ≠ [])
        · exact (by decide : resp404default ≠ [])

lemma dispatch_reader_of_not_post (gz : Str → Str) (dir : Str) (fs : FSState)
    (req : Req) (reader : Str)
    (h : ¬(strHasPref (strLit "/files/") req.path = true ∧ req.method = strLit "POST")) :
    (dispatch gz dir fs req reader).2.2 = reader := by
  rw [dispatch]
  split
  · rfl
  · split
    · split
      · rfl
      · rfl
    · split
      · rfl
      · split
        · split
          · rfl
          · split
            · rename_i hfiles _ hpost
              exact absurd ⟨hfiles, hpost⟩ h
            · rfl
        · rfl

lemma headBlank_step (rest : Str) (hs : List (Str × Str)) :
    readHeaders ('\r' :: '\n' :: rest) hs = some (hs, rest) := by
  rw [readHeaders_eq]
  have h : readStringNL ('\r' :: '\n' :: rest) = some (['\r', '\n'], rest) := by
    simp [readStringNL]
  rw [h]
  dsimp only
  rw [if_pos (by decide : (['\r', '\n'] : Str) = strLit "\r\n")]

lemma readHeaders_line (name value rest : Str) (hs : List (Str × Str))
    (hn0 : name ≠ [])
    (hnc : ∀ c ∈ name, (c == ':') = false)
    (hncrlf : ∀ c ∈ name, isCRLFc c = false)
    (hnt : trimSpace name = name)
    (hvcrlf : ∀ c ∈ value, isCRLFc c = false)
    (hvt : trimSpace value = value) :
    readHeaders (name ++ (':' :: ' ' :: value) ++ ('\r' :: '\n' :: rest)) hs
      = readHeaders rest (assocPut hs name value) := by
  have hcrlf_ne : ∀ c : Char, isCRLFc c = false → c ≠ '\n' := by
    intro c hc
    intro habs
    subst habs
    simp [isCRLFc] at hc
  have hA : ∀ c ∈ name ++ (':' :: ' ' :: value) ++ ['\r'], c ≠ '\n' := by
    intro c hc
    rcases List.mem_append.mp hc with hc1 | hc2
    · rcases List.mem_append.mp hc1 with hcn | hcv
      · exact hcrlf_ne c (hncrlf c hcn)
      · rcases List.mem_cons.mp hcv with h1 | hcv
        · subst h1; decide
        · rcases List.mem_cons.mp hcv with h1 | hcv
          · subst h1; decide
          · exact hcrlf_ne c (hvcrlf c hcv)
    · have : c = '\r' := by simpa using hc2
      subst this; decide
  have hshape : (name ++ (':' :: ' ' :: value) ++ ['\r']) ++ '\n' :: rest
      = name ++ (':' :: ' ' :: value) ++ ('\r' :: '\n' :: rest) := by
    simp [List.append_assoc]
  have hline : readStringNL (name ++ (':' :: ' ' :: value) ++ ('\r' :: '\n' :: rest))
      = some ((name ++ (':' :: ' ' :: value) ++ ['\r']) ++ ['\n'], rest) := by
    have h := readStringNL_break hA rest
    rw [hshape] at h
    exact h
  rw [readHeaders_eq, hline]
  dsimp only
  have hne : ((name ++ (':' :: ' ' :: value) ++ ['\r']) ++ ['\n']) ≠ strLit "\r\n" := by
    cases name with
    | nil => exact absurd rfl hn0
    | cons c t =>
      intro habs
      have hc := hncrlf c (List.mem_cons_self c t)
      simp only [List.cons_append, List.append_assoc] at habs
      injection habs with h1 _
      rw [h1] at hc
      simp [isCRLFc] at hc
  rw [if_neg hne]
  have hL : ∀ c ∈ name ++ (':' :: ' ' :: value), isCRLFc c = false := by
    intro c hc
    rcases List.mem_append.mp hc with hcn | hcv
    · exact hncrlf c hcn
    · rcases List.mem_cons.mp hcv with h1 | hcv
      · subst h1; decide
      · rcases List.mem_cons.mp hcv with h1 | hcv
        · subst h1; decide
        · exact hvcrlf c hcv
  have htrim : trimRightCRLF ((name ++ (':' :: ' ' :: value) ++ ['\r']) ++ ['\n'])
      = name ++ (':' :: ' ' :: value) := by
    rw [show (name ++ (':' :: ' ' :: value) ++ ['\r']) ++ ['\n']
          = (name ++ (':' :: ' ' :: value)) ++ ['\r', '\n'] by simp [List.append_assoc]]
    rw [trimRightCRLF_crlf_end, trimRightCRLF_no_crlf hL]
  rw [htrim, findIdx_colon_append hnc (' ' :: value)]
  dsimp only
  rw [if_pos (List.length_pos.mpr hn0), List.take_left]
  have hdrop : List.drop (name.length + 1) (name ++ (':' :: ' ' :: value))
      = ' ' :: value := by
    rw [← List.drop_drop, List.drop_left]
    rfl
  rw [hdrop, hnt, trimSpace_space_cons, hvt]

lemma readHeaders_append {t : Str} :
    ∀ {input : Str} {hs hs2 : List (Str × Str)},
      readHeaders input hs = some (hs2, []) →
      readHeaders (input ++ t) hs = some (hs2, t) := by
  suffices H : ∀ (n : Nat) (input : Str) (hs hs2 : List (Str × Str)),
      input.length ≤ n → readHeaders input hs = some (hs2, []) →
      readHeaders (input ++ t) hs = some (hs2, t) by
    intro input hs hs2 h
    exact H input.length input hs hs2 (Nat.le_refl _) h
  intro n
  induction n with
  | zero =>
    intro input hs hs2 hlen h
    have : input = [] := List.eq_nil_of_length_eq_zero (Nat.le_zero.mp hlen)
    subst this
    rw [readHeaders_eq] at h
    simp [readStringNL] at h
  | succ k ih =>
    intro input hs hs2 hlen h
    rw [readHeaders_eq] at h
    cases heq : readStringNL input with
    | none => rw [heq] at h; cases h
    | some lr =>
      obtain ⟨line, rest⟩ := lr
      rw [heq] at h
      dsimp only at h
      have hrest := readStringNL_length heq
      have hk : rest.length ≤ k := Nat.lt_succ_iff.mp (Nat.lt_of_lt_of_le hrest hlen)
      rw [readHeaders_eq, readStringNL_append heq t]
      dsimp only
      by_cases hline : line = strLit "\r\n"
      · rw [if_pos hline] at h ⊢
        cases h
        rfl
      · rw [if_neg hline] at h ⊢
        cases hidx : (trimRightCRLF line).findIdx? (fun c => c == ':') with
        | none =>
          rw [hidx] at h
          exact ih rest hs hs2 hk h
        | some i =>
          rw [hidx] at h
          dsimp only at h ⊢
          by_cases hi : 0 < i
          · rw [if_pos hi] at h ⊢
            exact ih rest _ hs2 hk h
          · rw [if_neg hi] at h ⊢
            exact ih rest hs hs2 hk h

lemma readRequest_append {a : Str} {req : Req} (t : Str)
    (h : readRequest a = some (req, [])) :
    readRequest (a ++ t) = some (req, t) := by
  rw [readRequest] at h
  cases heq : readStringNL a with
  | none => rw [heq] at h; cases h
  | some lr =>
    obtain ⟨line, rest⟩ := lr
    rw [heq] at h
    dsimp only at h
    rw [readRequest, readStringNL_append heq t]
    dsimp only
    cases hf : fields (trimRightCRLF line) with
    | nil => rw [hf] at h; cases h
    | cons m ps =>
      cases ps with
      | nil => rw [hf] at h; cases h
      | cons p vs =>
        cases vs with
        | nil => rw [hf] at h; cases h
        | cons v ws =>
          cases ws with
          | cons w ws2 => rw [hf] at h; cases h
          | nil =>
            rw [hf] at h
            dsimp only at h ⊢
            by_cases hv : strHasPref (strLit "HTTP/") v = true
            · rw [if_pos hv] at h ⊢
              cases hh : readHeaders rest [] with
              | none => rw [hh] at h; cases h
              | some hr =>
                obtain ⟨hdrs, rest2⟩ := hr
                rw [hh] at h
                cases h
                rw [readHeaders_append hh]
            · rw [if_neg hv] at h
              cases h

/-! ### Claims -/

/-- The malformed-request-line condition of the parser: a whitespace field
count other than 3, or a third field that does not start with `HTTP/`. -/
def badReqLine (l : Str) : Bool :=
  match fields l with
  | [_, _, v] => !strHasPref (strLit "HTTP/") v
  | _ => true

lemma readRequest_none_of_bad {input line rest : Str}
    (hline : readStringNL input = some (line, rest))
    (hbad : badReqLine (trimRightCRLF line) = true) :
    readRequest input = none := by
  rw [readRequest, hline]
  dsimp only
  rw [badReqLine] at hbad
  cases hf : fields (trimRightCRLF line) with
  | nil => rfl
  | cons m ps =>
    cases ps with
    | nil => rfl
    | cons p vs =>
      cases vs with
      | nil => rfl
      | cons v ws =>
        cases ws with
        | cons w ws2 => rfl
        | nil =>
          rw [hf] at hbad
          dsimp only at hbad
          dsimp only
          by_cases hv : strHasPref (strLit "HTTP/") v = true
          · rw [hv] at hbad
            exact absurd hbad (by decide)
          · rw [if_neg hv]

/-- C1 (corrected): on a connection whose first line is a malformed request
line (field count ≠ 3, or third field without the `HTTP/` prefix), the
server writes *nothing* — in particular no 400 response — and closes the
connection; no further request is read after the parse failure. -/
theorem C1_malformed_silent_close (gz : Str → Str) (dir : Str) (fs : FSState)
    (input line rest : Str)
    (hline : readStringNL input = some (line, rest))
    (hbad : badReqLine (trimRightCRLF line) = true) :
    serve gz dir fs input = ([], fs) := by
  rw [serve_eq, readRequest_none_of_bad hline hbad]

/-- Witness for C1: a request line with only two fields gets no bytes back. -/
theorem C1_malformed_silent_close_witness :
    serve (fun s => s) [] ⟨[], [], []⟩ (strLit "PUT /x\r\nmore") = ([], ⟨[], [], []⟩) :=
  C1_malformed_silent_close (fun s => s) [] ⟨[], [], []⟩ (strLit "PUT /x\r\nmore")
    (strLit "PUT /x\r\n") (strLit "more") (by decide) (by decide)

/-- Counterexample to C1 as stated: on a malformed request line (`GET /`,
two fields) the server writes no bytes at all — not a 400 response. -/
theorem C1_counterexample :
    (serve (fun s => s) [] ⟨[], [], []⟩ (strLit "GET /\r\n")).1 = [] ∧
    (serve (fun s => s) [] ⟨[], [], []⟩ (strLit "GET /\r\n")).1 ≠ resp400 := by
  decide

/-- C2 (confirmed): after a parsed request is responded to, the loop closes
the connection iff the request's `Connection` header value equals `close`
case-insensitively; otherwise it reads the next request from the same
stream.  Every dispatched request gets a non-empty response. -/
theorem C2_connection_close_policy (gz : Str → Str) (dir : Str) (fs : FSState)
    (input : Str) (req : Req) (rest : Str)
    (h : readRequest input = some (req, rest)) :
    (strToLower (assocGet req.headers (strLit "Connection")) = strLit "close" →
      serve gz dir fs input =
        ((dispatch gz dir fs req rest).1, (dispatch gz dir fs req rest).2.1)) ∧
    (strToLower (assocGet req.headers (strLit "Connection")) ≠ strLit "close" →
      serve gz dir fs input =
        ((dispatch gz dir fs req rest).1 ++
          (serve gz dir (dispatch gz dir fs req rest).2.1
            (dispatch gz dir fs req rest).2.2).1,
         (serve gz dir (dispatch gz dir fs req rest).2.1
           (dispatch gz dir fs req rest).2.2).2)) ∧
    (dispatch gz dir fs req rest).1 ≠ [] := by
  refine ⟨?_, ?_, dispatch_ne_nil gz dir fs req rest⟩
  · intro hc
    rw [serve_eq, h]
    dsimp only
    rw [if_pos hc]
  · intro hc
    rw [serve_eq, h]
    dsimp only
    rw [if_neg hc]

/-- Witness for C2: a request carrying `Connection: close` is answered and
the second request on the stream is never read. -/
theorem C2_connection_close_policy_witness :
    serve (fun s => s) [] ⟨[], [], []⟩
        (strLit "GET / HTTP/1.1\r\nConnection: close\r\n\r\nGET / HTTP/1.1\r\n\r\n")
      = (rootResp, ⟨[], [], []⟩) := by
  have h := (C2_connection_close_policy (fun s => s) [] ⟨[], [], []⟩
      (strLit "GET / HTTP/1.1\r\nConnection: close\r\n\r\nGET / HTTP/1.1\r\n\r\n")
      ⟨strLit "GET", strLit "/", [(strLit "Connection", strLit "close")]⟩
      (strLit "GET / HTTP/1.1\r\n\r\n") (by decide)).1 (by decide)
  rw [h]
  decide

lemma echo_path_ne_root (s : Str) : ¬(strLit "/echo/" ++ s = strLit "/") := by
  intro habs
  have hlen := congrArg List.length habs
  rw [List.length_append] at hlen
  rw [show (strLit "/echo/").length = 6 from by decide,
    show (strLit "/").length = 1 from by decide] at hlen
  omega

/-- C3 (confirmed): a GET request for `/echo/` ++ s whose `Accept-Encoding`
value does not contain `gzip` is answered 200 with `Content-Type:
text/plain`, `Content-Length` equal to `s.length`, and body exactly `s`. -/
theorem C3_echo_identity (gz : Str → Str) (dir : Str) (fs : FSState) (req : Req)
    (reader s : Str)
    (_hm : req.method = strLit "GET")
    (hp : req.path = strLit "/echo/" ++ s)
    (hae : containsSub (assocGet req.headers (strLit "Accept-Encoding"))
        (strLit "gzip") = false) :
    dispatch gz dir fs req reader =
      (strLit "HTTP/1.1 200 OK\r\nContent-Type: text/plain\r\nContent-Length: " ++
        natToStr s.length ++ strLit "\r\n\r\n" ++ s, fs, reader) := by
  rw [dispatch, hp]
  rw [if_neg (echo_path_ne_root s), if_pos (strHasPref_append (strLit "/echo/") s)]
  dsimp only
  rw [strTrimPref_append]
  rw [if_neg (by rw [hae]; exact Bool.false_ne_true)]
  rw [echoResp]

/-- Witness for C3. -/
theorem C3_echo_identity_witness :
    dispatch (fun s => s) [] ⟨[], [], []⟩ ⟨strLit "GET", strLit "/echo/abc", []⟩ [] =
      (strLit "HTTP/1.1 200 OK\r\nContent-Type: text/plain\r\nContent-Length: " ++
        natToStr (strLit "abc").length ++ strLit "\r\n\r\n" ++ strLit "abc",
       ⟨[], [], []⟩, []) :=
  C3_echo_identity (fun s => s) [] ⟨[], [], []⟩
    ⟨strLit "GET", strLit "/echo/abc", []⟩ [] (strLit "abc")
    (by decide) (by decide) (by decide)

/-- C4 (confirmed): a GET request for `/echo/` ++ s whose `Accept-Encoding`
value contains `gzip` is answered 200 with `Content-Encoding: gzip`,
`Content-Length` equal to the length of the compressed body actually sent,
and a body that is exactly the compressor's output on `s` — so any correct
decompressor recovers `s` from the body. -/
theorem C4_echo_gzip_roundtrip (gz gunzip : Str → Str) (dir : Str) (fs : FSState)
    (req : Req) (reader s : Str)
    (_hm : req.method = strLit "GET")
    (hp : req.path = strLit "/echo/" ++ s)
    (hae : containsSub (assocGet req.headers (strLit "Accept-Encoding"))
        (strLit "gzip") = true)
    (hrt : gunzip (gz s) = s) :
    dispatch gz dir fs req reader = (gzipRespHeader (gz s).length ++ gz s, fs, reader) ∧
    gunzip ((dispatch gz dir fs req reader).1.drop
      (gzipRespHeader (gz s).length).length) = s := by
  have heq : dispatch gz dir fs req reader
      = (gzipRespHeader (gz s).length ++ gz s, fs, reader) := by
    rw [dispatch, hp]
    rw [if_neg (echo_path_ne_root s), if_pos (strHasPref_append (strLit "/echo/") s)]
    dsimp only
    rw [strTrimPref_append]
    rw [if_pos hae]
  refine ⟨heq, ?_⟩
  rw [heq]
  dsimp only
  rw [List.drop_left, hrt]

/-- Witness for C4, with a prefix-marker compressor and its inverse. -/
theorem C4_echo_gzip_roundtrip_witness :
    dispatch (fun x => 'G' :: x) [] ⟨[], [], []⟩
        ⟨strLit "GET", strLit "/echo/hi", [(strLit "Accept-Encoding", strLit "gzip")]⟩ []
      = (gzipRespHeader ('G' :: strLit "hi").length ++ ('G' :: strLit "hi"),
         ⟨[], [], []⟩, []) ∧
    (fun x => x.drop 1)
        ((dispatch (fun x => 'G' :: x) [] ⟨[], [], []⟩
            ⟨strLit "GET", strLit "/echo/hi", [(strLit "Accept-Encoding", strLit "gzip")]⟩
            []).1.drop (gzipRespHeader ('G' :: strLit "hi").length).length)
      = strLit "hi" :=
  C4_echo_gzip_roundtrip (fun x => 'G' :: x) (fun x => x.drop 1) [] ⟨[], [], []⟩
    ⟨strLit "GET", strLit "/echo/hi", [(strLit "Accept-Encoding", strLit "gzip")]⟩
    [] (strLit "hi") (by decide) (by decide) (by decide) (by decide)

/-- C5 (confirmed): the POST `/files/` handler returns 404 when no base
directory is configured; 400 — consuming no body bytes — when
`Content-Length` is absent, non-numeric, or negative; otherwise it reads
exactly `Content-Length` bytes of the body, writes them to the joined
path (overwriting any existing file), and responds 201 on success or 500
when the file-system create or write fails. -/
theorem C5_file_post_semantics (dir : Str) (fs : FSState) (fn : Str)
    (hs : List (Str × Str)) (reader : Str) :
    (dir = [] → handleFilePost dir fs fn hs reader = (resp404files, fs, reader)) ∧
    (dir ≠ [] → assocGet? hs (strLit "Content-Length") = none →
      handleFilePost dir fs fn hs reader = (resp400, fs, reader)) ∧
    (∀ v, dir ≠ [] → assocGet? hs (strLit "Content-Length") = some v →
      atoi v = none → handleFilePost dir fs fn hs reader = (resp400, fs, reader)) ∧
    (∀ v n, dir ≠ [] → assocGet? hs (strLit "Content-Length") = some v →
      atoi v = some n → n < 0 →
      handleFilePost dir fs fn hs reader = (resp400, fs, reader)) ∧
    (∀ v n, dir ≠ [] → assocGet? hs (strLit "Content-Length") = some v →
      atoi v = some n → 0 ≤ n → n.toNat ≤ reader.length →
      filepathJoin dir fn ∉ fs.createFails → filepathJoin dir fn ∉ fs.writeFails →
      handleFilePost dir fs fn hs reader =
        (resp201,
         ⟨assocPut (assocPut fs.files (filepathJoin dir fn) []) (filepathJoin dir fn)
            (reader.take n.toNat), fs.createFails, fs.writeFails⟩,
         reader.drop n.toNat) ∧
      (reader.take n.toNat).length = n.toNat ∧
      assocGet? (handleFilePost dir fs fn hs reader).2.1.files (filepathJoin dir fn)
        = some (reader.take n.toNat)) ∧
    (∀ v n, dir ≠ [] → assocGet? hs (strLit "Content-Length") = some v →
      atoi v = some n → 0 ≤ n → n.toNat ≤ reader.length →
      filepathJoin dir fn ∈ fs.createFails →
      handleFilePost dir fs fn hs reader = (resp500, fs, reader.drop n.toNat)) ∧
    (∀ v n, dir ≠ [] → assocGet? hs (strLit "Content-Length") = some v →
      atoi v = some n → 0 ≤ n → n.toNat ≤ reader.length →
      filepathJoin dir fn ∉ fs.createFails → filepathJoin dir fn ∈ fs.writeFails →
      handleFilePost dir fs fn hs reader =
        (resp500, ⟨assocPut fs.files (filepathJoin dir fn) [], fs.createFails,
          fs.writeFails⟩, reader.drop n.toNat)) := by
  refine ⟨?_, ?_, ?_, ?_, ?_, ?_, ?_⟩
  · intro h0
    rw [handleFilePost, if_pos h0]
  · intro h0 h1
    rw [handleFilePost, if_neg h0, h1]
  · intro v h0 h1 h2
    rw [handleFilePost, if_neg h0, h1]
    dsimp only
    rw [h2]
  · intro v n h0 h1 h2 h3
    rw [handleFilePost, if_neg h0, h1]
    dsimp only
    rw [h2]
    dsimp only
    rw [if_pos h3]
  · intro v n h0 h1 h2 h3 h4 h5 h6
    have hmain : handleFilePost dir fs fn hs reader =
        (resp201,
         ⟨assocPut (assocPut fs.files (filepathJoin dir fn) []) (filepathJoin dir fn)
            (reader.take n.toNat), fs.createFails, fs.writeFails⟩,
         reader.drop n.toNat) := by
      rw [handleFilePost, if_neg h0, h1]
      dsimp only
      rw [h2]
      dsimp only
      rw [if_neg (not_lt.mpr h3), if_neg (not_lt.mpr h4)]
      rw [if_neg h5, if_neg h6]
    refine ⟨hmain, ?_, ?_⟩
    · rw [List.length_take]
      exact Nat.min_eq_left h4
    · rw [hmain]
      exact assocGet?_assocPut _ _ _
  · intro v n h0 h1 h2 h3 h4 h5
    rw [handleFilePost, if_neg h0, h1]
    dsimp only
    rw [h2]
    dsimp only
    rw [if_neg (not_lt.mpr h3), if_neg (not_lt.mpr h4)]
    rw [if_pos h5]
  · intro v n h0 h1 h2 h3 h4 h5 h6
    rw [handleFilePost, if_neg h0, h1]
    dsimp only
    rw [h2]
    dsimp only
    rw [if_neg (not_lt.mpr h3), if_neg (not_lt.mpr h4)]
    rw [if_neg h5, if_pos h6]

/-- Witness for C5: a successful write of exactly three body bytes. -/
theorem C5_file_post_semantics_witness :
    handleFilePost (strLit "/d") ⟨[], [], []⟩ (strLit "f")
        [(strLit "Content-Length", strLit "3")] (strLit "abcde")
      = (resp201,
         ⟨assocPut (assocPut [] (filepathJoin (strLit "/d") (strLit "f")) [])
            (filepathJoin (strLit "/d") (strLit "f"))
            ((strLit "abcde").take (3 : Int).toNat), [], []⟩,
         (strLit "abcde").drop (3 : Int).toNat) :=
  ((C5_file_post_semantics (strLit "/d") ⟨[], [], []⟩ (strLit "f")
      [(strLit "Content-Length", strLit "3")] (strLit "abcde")).2.2.2.2.1
    (strLit "3") 3 (by decide) (by decide) (by decide) (by decide) (by decide)
    (by decide) (by decide)).1

/-- C6 (confirmed): a declared `Content-Length` exceeding the bytes
available on the stream makes the POST `/files/` handler answer 400 and
leave the filesystem unchanged — no file is created. -/
theorem C6_short_read_no_file (dir : Str) (fs : FSState) (fn : Str)
    (hs : List (Str × Str)) (reader v : Str) (n : Int)
    (hdir : dir ≠ [])
    (hv : assocGet? hs (strLit "Content-Length") = some v)
    (hn : atoi v = some n) (hpos : 0 ≤ n)
    (hshort : reader.length < n.toNat) :
    handleFilePost dir fs fn hs reader = (resp400, fs, reader.drop n.toNat) ∧
    (handleFilePost dir fs fn hs reader).2.1 = fs := by
  have hmain : handleFilePost dir fs fn hs reader
      = (resp400, fs, reader.drop n.toNat) := by
    rw [handleFilePost, if_neg hdir, hv]
    dsimp only
    rw [hn]
    dsimp only
    rw [if_neg (not_lt.mpr hpos), if_pos hshort]
  exact ⟨hmain, by rw [hmain]⟩

/-- Witness for C6: `Content-Length: 5` with only two body bytes. -/
theorem C6_short_read_no_file_witness :
    handleFilePost (strLit "/d") ⟨[], [], []⟩ (strLit "f")
        [(strLit "Content-Length", strLit "5")] (strLit "ab")
      = (resp400, ⟨[], [], []⟩, (strLit "ab").drop (5 : Int).toNat) ∧
    (handleFilePost (strLit "/d") ⟨[], [], []⟩ (strLit "f")
        [(strLit "Content-Length", strLit "5")] (strLit "ab")).2.1 = ⟨[], [], []⟩ :=
  C6_short_read_no_file (strLit "/d") ⟨[], [], []⟩ (strLit "f")
    [(strLit "Content-Length", strLit "5")] (strLit "ab") (strLit "5") 5
    (by decide) (by decide) (by decide) (by decide) (by decide)

/-- Counterexample to C7 as stated: a request whose header reads
`connection: close` (lowercase name) does *not* close the connection —
the second request is also answered — while `Connection: close` does. -/
theorem C7_counterexample :
    (serve (fun s => s) [] ⟨[], [], []⟩
        (strLit "GET / HTTP/1.1\r\nconnection: close\r\n\r\nGET / HTTP/1.1\r\n\r\n")).1
      = rootResp ++ rootResp ∧
    (serve (fun s => s) [] ⟨[], [], []⟩
        (strLit "GET / HTTP/1.1\r\nConnection: close\r\n\r\nGET / HTTP/1.1\r\n\r\n")).1
      = rootResp ∧
    rootResp ++ rootResp ≠ rootResp := by decide

/-- C7 (corrected): header-name lookup is case-*sensitive* — the parser
stores names verbatim and the handlers read the exact keys `Connection`,
`Content-Length`, `Accept-Encoding`, `User-Agent`.  For every continuation
of the stream, `connection: close` keeps the connection open (the loop goes
on to serve the rest of the stream) whereas `Connection: close` closes it
right after the response. -/
theorem C7_case_sensitive_lookup (gz : Str → Str) (dir : Str) (fs : FSState)
    (tail : Str) :
    serve gz dir fs (strLit "GET / HTTP/1.1\r\nconnection: close\r\n\r\n" ++ tail)
      = (rootResp ++ (serve gz dir fs tail).1, (serve gz dir fs tail).2) ∧
    serve gz dir fs (strLit "GET / HTTP/1.1\r\nConnection: close\r\n\r\n" ++ tail)
      = (rootResp, fs) := by
  constructor
  · have h := @readRequest_append
      (strLit "GET / HTTP/1.1\r\nconnection: close\r\n\r\n")
      ⟨strLit "GET", strLit "/", [(strLit "connection", strLit "close")]⟩
      tail (by decide)
    rw [serve_eq, h]
    dsimp only
    rw [if_neg (by decide)]
    have hd : dispatch gz dir fs
        ⟨strLit "GET", strLit "/", [(strLit "connection", strLit "close")]⟩ tail
        = (rootResp, fs, tail) := by
      rw [dispatch, if_pos (by decide)]
    rw [hd]
  · have h := @readRequest_append
      (strLit "GET / HTTP/1.1\r\nConnection: close\r\n\r\n")
      ⟨strLit "GET", strLit "/", [(strLit "Connection", strLit "close")]⟩
      tail (by decide)
    rw [serve_eq, h]
    dsimp only
    rw [if_pos (by decide)]
    have hd : dispatch gz dir fs
        ⟨strLit "GET", strLit "/", [(strLit "Connection", strLit "close")]⟩ tail
        = (rootResp, fs, tail) := by
      rw [dispatch, if_pos (by decide)]
    rw [hd]

/-- Counterexample to C8 as stated: with two `X-A` header lines the parsed
map holds the value of the *second* line, not the first. -/
theorem C8_counterexample :
    (readRequest (strLit "GET / HTTP/1.1\r\nX-A: one\r\nX-A: two\r\n\r\n")).map
        (fun pr => assocGet pr.1.headers (strLit "X-A"))
      = some (strLit "two") ∧
    (readRequest (strLit "GET / HTTP/1.1\r\nX-A: one\r\nX-A: two\r\n\r\n")).map
        (fun pr => assocGet pr.1.headers (strLit "X-A"))
      ≠ some (strLit "one") := by decide

lemma assocPut_overwrite (k v1 v2 : Str) : assocPut [(k, v1)] k v2 = [(k, v2)] := by
  have hany : (([(k, v1)] : List (Str × Str)).any fun kv => kv.1 == k) = true := by
    simp
  rw [assocPut, if_pos hany, List.map_cons]
  rw [if_pos (by simp : (((k, v1) : Str × Str).1 == k) = true)]
  rfl

/-- C8 (corrected): when a request contains two header lines with the same
name, the parsed header map holds the value of the *last* such line
(Go map assignment overwrites), for every header name and pair of values. -/
theorem C8_duplicate_last_wins (name v1 v2 rest : Str)
    (hn0 : name ≠ [])
    (hnc : ∀ c ∈ name, (c == ':') = false)
    (hncrlf : ∀ c ∈ name, isCRLFc c = false)
    (hnt : trimSpace name = name)
    (h1crlf : ∀ c ∈ v1, isCRLFc c = false) (h1t : trimSpace v1 = v1)
    (h2crlf : ∀ c ∈ v2, isCRLFc c = false) (h2t : trimSpace v2 = v2) :
    readHeaders (name ++ (':' :: ' ' :: v1) ++
        ('\r' :: '\n' :: (name ++ (':' :: ' ' :: v2) ++
          ('\r' :: '\n' :: '\r' :: '\n' :: rest)))) []
      = some ([(name, v2)], rest) := by
  rw [readHeaders_line name v1 _ [] hn0 hnc hncrlf hnt h1crlf h1t]
  rw [readHeaders_line name v2 _ _ hn0 hnc hncrlf hnt h2crlf h2t]
  rw [headBlank_step, assocPut_nil, assocPut_overwrite]

/-- Witness for C8: name `X-A`, first value `one`, second value `two`. -/
theorem C8_duplicate_last_wins_witness :
    readHeaders (strLit "X-A" ++ (':' :: ' ' :: strLit "one") ++
        ('\r' :: '\n' :: (strLit "X-A" ++ (':' :: ' ' :: strLit "two") ++
          ('\r' :: '\n' :: '\r' :: '\n' :: [])))) []
      = some ([(strLit "X-A", strLit "two")], []) :=
  C8_duplicate_last_wins (strLit "X-A") (strLit "one") (strLit "two") []
    (by decide) (by decide) (by decide) (by decide) (by decide) (by decide)
    (by decide) (by decide)

/-- C9 (confirmed): the filename captured after `/files/` is joined with
the base directory with no traversal sanitization: for the filename
`../secret` (which contains a `..` segment) the resolved path
`/tmp/secret` lies outside the base directory `/tmp/data`, and both the
file-read and the file-write handler operate on that outside path. -/
theorem C9_path_traversal :
    containsSub (strLit "../secret") (strLit "..") = true ∧
    filepathJoin (strLit "/tmp/data") (strLit "../secret") = strLit "/tmp/secret" ∧
    strHasPref (strLit "/tmp/data") (strLit "/tmp/secret") = false ∧
    handleFileGet (strLit "/tmp/data")
        ⟨[(strLit "/tmp/secret", strLit "boo")], [], []⟩ (strLit "../secret")
      = fileOkHeader (strLit "boo").length ++ strLit "boo" ∧
    (handleFilePost (strLit "/tmp/data") ⟨[], [], []⟩ (strLit "../secret")
        [(strLit "Content-Length", strLit "2")] (strLit "hi")).2.1.files
      = [(strLit "/tmp/secret", strLit "hi")] := by decide

/-- Counterexample to C10 as stated: a non-`/files/` POST whose unread body
is itself a well-formed request does *not* make the next iteration fail —
the body is parsed as a second request and answered (two root responses). -/
theorem C10_counterexample :
    serve (fun s => s) [] ⟨[], [], []⟩
        (strLit "POST / HTTP/1.1\r\nContent-Length: 18\r\n\r\nGET / HTTP/1.1\r\n\r\n")
      = (rootResp ++ rootResp, ⟨[], [], []⟩) := by decide

/-- C10 (corrected): for a request with a declared non-empty body routed to
any handler other than the file-write handler, the body bytes are not
consumed, and on a persistent connection the leftover bytes are parsed as
the start of the next request; *when those bytes do not parse as a
request* the loop writes nothing further and closes silently. -/
theorem C10_unconsumed_body (gz : Str → Str) (dir : Str) (fs : FSState)
    (input : Str) (req : Req) (rest : Str)
    (h : readRequest input = some (req, rest))
    (hroute : ¬(strHasPref (strLit "/files/") req.path = true ∧
      req.method = strLit "POST"))
    (_hcl : ∃ v n, assocGet? req.headers (strLit "Content-Length") = some v ∧
      atoi v = some n ∧ 0 < n)
    (hkeep : strToLower (assocGet req.headers (strLit "Connection")) ≠ strLit "close")
    (hnoparse : readRequest rest = none) :
    (dispatch gz dir fs req rest).2.2 = rest ∧
    serve gz dir fs input
      = ((dispatch gz dir fs req rest).1, (dispatch gz dir fs req rest).2.1) := by
  have hrd := dispatch_reader_of_not_post gz dir fs req rest hroute
  refine ⟨hrd, ?_⟩
  rw [serve_eq, h]
  dsimp only
  rw [if_neg hkeep, hrd]
  have h2 : serve gz dir (dispatch gz dir fs req rest).2.1 rest
      = ([], (dispatch gz dir fs req rest).2.1) := by
    rw [serve_eq, hnoparse]
  rw [h2]
  simp

/-- Witness for C10: `POST /` with five declared body bytes `hello` that
are never consumed and do not parse as a request. -/
theorem C10_unconsumed_body_witness :
    (dispatch (fun s => s) [] ⟨[], [], []⟩
        ⟨strLit "POST", strLit "/", [(strLit "Content-Length", strLit "5")]⟩
        (strLit "hello")).2.2 = strLit "hello" ∧
    serve (fun s => s) [] ⟨[], [], []⟩
        (strLit "POST / HTTP/1.1\r\nContent-Length: 5\r\n\r\nhello")
      = ((dispatch (fun s => s) [] ⟨[], [], []⟩
            ⟨strLit "POST", strLit "/", [(strLit "Content-Length", strLit "5")]⟩
            (strLit "hello")).1,
         (dispatch (fun s => s) [] ⟨[], [], []⟩
            ⟨strLit "POST", strLit "/", [(strLit "Content-Length", strLit "5")]⟩
            (strLit "hello")).2.1) :=
  C10_unconsumed_body (fun s => s) [] ⟨[], [], []⟩
    (strLit "POST / HTTP/1.1\r\nContent-Length: 5\r\n\r\nhello")
    ⟨strLit "POST", strLit "/", [(strLit "Content-Length", strLit "5")]⟩
    (strLit "hello") (by decide) (by decide)
    ⟨strLit "5", 5, by decide, by decide, by decide⟩ (by decide) (by decide)

end HttpModel
